import Mathlib

/-!
Verification of the fuego-cloud deployment control plane.

Each Go handler or helper that a claim depends on is embedded as an
executable Lean definition, translated from the corresponding source file.
External effects (database rows, the Kubernetes API, DNS, bcrypt, JWT
validation) are passed in explicitly as values or oracle functions, so every
definition is a pure function of its inputs.
-/

namespace FuegoCloud

/-! ## Scale endpoint (src/app/api/apps/appname/scale/route.go, Post) -/

/-- Request body of POST /api/apps/:name/scale (`ScaleRequest`). -/
structure ScaleRequest where
  replicas : Int
  deriving Repr, DecidableEq

/-- Observable outcome of the scale handler: HTTP status, whether the
cluster (`ScaleApp`) was called, and the replicas echoed on success. -/
structure ScaleOutcome where
  status : Nat
  clusterCalled : Bool
  replicasOut : Option Int
  deriving Repr, DecidableEq

/-- Embedding of `Post` from scale/route.go.  `appFound` models the result
of `GetAppByName`, `k8sAvailable` the result of `k8s.NewClient`, and
`scaleOk` the result of the `ScaleApp` cluster call. -/
def scalePost (req : ScaleRequest) (appFound k8sAvailable scaleOk : Bool) :
    ScaleOutcome :=
  if req.replicas < 0 ∨ req.replicas > 10 then
    { status := 400, clusterCalled := false, replicasOut := none }
  else if ¬appFound then
    { status := 404, clusterCalled := false, replicasOut := none }
  else if ¬k8sAvailable then
    { status := 500, clusterCalled := false, replicasOut := none }
  else if ¬scaleOk then
    { status := 500, clusterCalled := true, replicasOut := none }
  else
    { status := 200, clusterCalled := true, replicasOut := some req.replicas }

/-! ## Health endpoint (src/app/api/health/route.go, Get) -/

/-- State of one dependency as the handler observes it: the context value
is absent/nil, the probe fails, or the probe succeeds. -/
inductive DepState where
  | absent
  | unhealthy
  | healthy
  deriving Repr, DecidableEq

/-- `HealthResponse` from health/route.go. -/
structure HealthResponse where
  status : String
  database : String
  kubernetes : String
  version : String
  deriving Repr, DecidableEq

/-- Embedding of `Get` from health/route.go: returns the HTTP status code
and the JSON body.  `db` models the pool lookup plus `Ping`, `k8s` the
client lookup plus `ServerVersion`. -/
def healthGet (db k8s : DepState) : Nat × HealthResponse :=
  let resp0 : HealthResponse :=
    { status := "ok", database := "", kubernetes := "", version := "0.1.0" }
  let resp1 :=
    match db with
    | .absent => { resp0 with database := "disconnected" }
    | .unhealthy => { resp0 with database := "unhealthy", status := "degraded" }
    | .healthy => { resp0 with database := "healthy" }
  let resp2 :=
    match k8s with
    | .absent => { resp1 with kubernetes := "disconnected" }
    | .unhealthy => { resp1 with kubernetes := "unhealthy" }
    | .healthy => { resp1 with kubernetes := "healthy" }
  let code := if resp2.status ≠ "ok" then 503 else 200
  (code, resp2)

/-! ## Auth middleware (src/unnamed/part_017, `Middleware` / `handleAPIToken`) -/

/-- A row of the `api_tokens` table as scanned by
`searchAllTokensOptimized` (uuid ids are abstracted to Nat). -/
structure ApiTokenRec where
  id : Nat
  userId : Nat
  tokenHash : String
  expiresAt : Option Int
  createdAt : Int
  deriving Repr, DecidableEq

/-- Which verification path the middleware routed the credential to. -/
inductive AuthRoute where
  | apiToken
  | session
  deriving Repr, DecidableEq

/-- Final authentication outcome of the middleware. -/
inductive AuthOutcome where
  | unauthorized (msg : String)
  | apiAuth (tokenId userId : Nat)
  | sessionAuth (userId : Nat)
  deriving Repr, DecidableEq

/-- Embedding of `searchAllTokensOptimized`: scan all rows and return the
first whose bcrypt hash matches the presented token.  `bcryptMatch hash
token` models `bcrypt.CompareHashAndPassword` succeeding. -/
def findAPITokenByPrefix (tokens : List ApiTokenRec)
    (bcryptMatch : String → String → Bool) (token : String) :
    Option ApiTokenRec :=
  tokens.find? (fun t => bcryptMatch t.tokenHash token)

/-- Embedding of `handleAPIToken`: look the token up, reject it when its
`expires_at` is set and before `now`, otherwise authenticate as the owning
user.  `userOf` models `GetUserByID`. -/
def handleAPIToken (tokens : List ApiTokenRec)
    (bcryptMatch : String → String → Bool) (userOf : Nat → Option Nat)
    (token : String) (now : Int) : AuthOutcome :=
  match findAPITokenByPrefix tokens bcryptMatch token with
  | none => .unauthorized "invalid api token"
  | some t =>
    match t.expiresAt with
    | some exp =>
      if exp < now then .unauthorized "token expired"
      else
        match userOf t.userId with
        | none => .unauthorized "user not found"
        | some uid => .apiAuth t.id uid
    | none =>
      match userOf t.userId with
      | none => .unauthorized "user not found"
      | some uid => .apiAuth t.id uid

/-- Embedding of `strings.HasPrefix(token, "fgt_")`: the four marker
characters are ASCII, so the byte comparison Go performs coincides with
this character comparison. -/
def isApiTokenCred (s : String) : Bool :=
  s.data.take 4 = ['f', 'g', 't', '_']

/-- Embedding of the protected-path branch of `Middleware` (the credential
has already been extracted and is non-empty).  `jwtClaims` models
`auth.ValidateToken` returning the claims' user id.  The route component
records whether the API-token path or the JWT path was taken. -/
def middlewareAuth (tokens : List ApiTokenRec)
    (bcryptMatch : String → String → Bool) (userOf : Nat → Option Nat)
    (jwtClaims : String → Option Nat) (cred : String) (now : Int) :
    AuthRoute × AuthOutcome :=
  if isApiTokenCred cred then
    (.apiToken, handleAPIToken tokens bcryptMatch userOf cred now)
  else
    match jwtClaims cred with
    | none => (.session, .unauthorized "invalid token")
    | some uid => (.session, .sessionAuth uid)

/-! ## Domain verify endpoint
(src/app/api/apps/_name/domains/_domain/verify/route.go, Post) -/

/-- A row of the `domains` table as used by the verify handler. -/
structure DomainRec where
  domain : String
  appId : Nat
  verified : Bool
  verifiedAt : Option Int
  sslStatus : String
  deriving Repr, DecidableEq

/-- Body of the verify handler's 200 response (`VerifyResponse`). -/
structure VerifyResponse where
  domain : String
  verified : Bool
  verifiedAt : Option Int
  message : String
  deriving Repr, DecidableEq

/-- Observable outcome of the verify handler: HTTP status, the body on
success, whether `verifyDNS` performed a lookup, and the domain row as it
stands afterwards. -/
structure VerifyOutcome where
  status : Nat
  body : Option VerifyResponse
  dnsCalled : Bool
  finalRow : Option DomainRec
  deriving Repr, DecidableEq

/-- Embedding of `Post` from verify/route.go.  `appId` is the id of the app
found by `GetAppByName` (`none` = not found), `row` the domain row found by
`GetDomainByName`, `dnsVerified` the result of `verifyDNS` (`none` = lookup
error), `now` the `UpdateDomainVerified` timestamp, and `updateOk` whether
that update succeeds. -/
def verifyPost (appId : Option Nat) (row : Option DomainRec)
    (dnsVerified : Option Bool) (now : Int) (updateOk : Bool) :
    VerifyOutcome :=
  match appId with
  | none => { status := 404, body := none, dnsCalled := false, finalRow := row }
  | some aid =>
    match row with
    | none => { status := 404, body := none, dnsCalled := false, finalRow := none }
    | some d =>
      if d.appId ≠ aid then
        { status := 404, body := none, dnsCalled := false, finalRow := some d }
      else if d.verified then
        { status := 200,
          body := some { domain := d.domain, verified := true,
                         verifiedAt := d.verifiedAt,
                         message := "domain already verified" },
          dnsCalled := false, finalRow := some d }
      else
        match dnsVerified with
        | none =>
          { status := 200,
            body := some { domain := d.domain, verified := false,
                           verifiedAt := none,
                           message := "DNS verification failed" },
            dnsCalled := true, finalRow := some d }
        | some false =>
          { status := 200,
            body := some { domain := d.domain, verified := false,
                           verifiedAt := none,
                           message := "DNS verification failed" },
            dnsCalled := true, finalRow := some d }
        | some true =>
          if updateOk then
            let d' := { d with verified := true, verifiedAt := some now }
            { status := 200,
              body := some { domain := d'.domain, verified := true,
                             verifiedAt := d'.verifiedAt,
                             message := "domain verified successfully" },
              dnsCalled := true, finalRow := some d' }
          else
            { status := 500, body := none, dnsCalled := true,
              finalRow := some d }

/-! ## OAuth callback (src/app/api/auth/callback/route.go, Get) -/

/-- A row of `oauth_states` (schema.sql): redirect URI, CLI-exchange flag,
expiry instant. -/
structure OAuthStateRec where
  redirectUri : Option String
  cliTokenExchange : Option Bool
  expiresAt : Int
  deriving Repr, DecidableEq

/-- The persisted state store, keyed by the `state` string. -/
abbrev StateStore := List (String × OAuthStateRec)

/-- `GetOAuthState`: the row with the given key (`state` is the primary
key, so at most one row matches). -/
def getOAuthState (store : StateStore) (st : String) : Option OAuthStateRec :=
  (store.find? (fun p => p.1 = st)).map Prod.snd

/-- `DeleteOAuthState`: drop every row with the given key. -/
def deleteOAuthState (store : StateStore) (st : String) : StateStore :=
  store.filter (fun p => ¬p.1 = st)

/-- Query parameters of the callback request. -/
structure CallbackReq where
  code : String
  state : String
  errorParam : String
  deriving Repr, DecidableEq

/-- What the callback answered together with the state store it leaves
behind. -/
structure CallbackResult where
  status : Nat
  store : StateStore

/-- Oracles for the external effects after state consumption: the GitHub
code exchange, the profile fetch, the user upsert and the token pair. -/
structure CallbackOracles where
  exchangeOk : Bool
  getUserOk : Bool
  upsertOk : Bool
  tokenOk : Bool
  deriving Repr, DecidableEq

/-- Embedding of `Get` from auth/callback/route.go: provider error and
missing parameters answer 400 without touching the store; an unknown state
answers 400; an expired state is deleted and answers 400; otherwise the
state row is deleted before the code exchange, and the remaining steps
answer 500, 200 (CLI exchange) or 302. -/
def callbackGet (req : CallbackReq) (store : StateStore) (now : Int)
    (oracles : CallbackOracles) : CallbackResult :=
  if req.errorParam ≠ "" then { status := 400, store := store }
  else if req.code = "" ∨ req.state = "" then { status := 400, store := store }
  else
    match getOAuthState store req.state with
    | none => { status := 400, store := store }
    | some row =>
      if now > row.expiresAt then
        { status := 400, store := deleteOAuthState store req.state }
      else
        let store' := deleteOAuthState store req.state
        if ¬oracles.exchangeOk then { status := 500, store := store' }
        else if ¬oracles.getUserOk then { status := 500, store := store' }
        else if ¬oracles.upsertOk then { status := 500, store := store' }
        else if ¬oracles.tokenOk then { status := 500, store := store' }
        else if row.cliTokenExchange.getD false then
          { status := 200, store := store' }
        else { status := 302, store := store' }

/-! ## Crypto vault (src/internal/cryptoutil/encryption.go)

`Encrypt`/`Decrypt` below are translated from encryption.go.  Two pieces
live outside this repository, in Go's standard library, and are modelled
from the spec:

* the deterministic serialization (`json.Marshal` of a string map) is
  modelled as a length-prefixed byte encoding of the association list;
* the AEAD (`cipher.NewGCM(aes.NewCipher(key))`) is modelled as an ideal
  authenticated cipher: `seal` appends a tag binding key, nonce and body,
  `open` recomputes and compares it.  The tag occupies one (unbounded)
  slot, idealizing the 16-byte GCM tag whose forgery resistance is only
  computational.
-/

/-- Bytes of a string (one slot per character). -/
def strBytes (s : String) : List Nat :=
  s.data.map Char.toNat

/-- Inverse of `strBytes`. -/
def bytesStr (l : List Nat) : String :=
  ⟨l.map Char.ofNat⟩

/-- `bytesStr` undoes `strBytes`. -/
theorem bytesStr_strBytes (s : String) : bytesStr (strBytes s) = s := by
  cases s with
  | mk data =>
    simp [bytesStr, strBytes, List.map_map, Function.comp_def,
      Char.ofNat_toNat]

/-- Modelled from the spec: the deterministic serialization of one
key/value pair (`json.Marshal` is external to the repo). -/
def serializePair (kv : String × String) : List Nat :=
  (strBytes kv.1).length :: strBytes kv.1 ++
    (strBytes kv.2).length :: strBytes kv.2

/-- Modelled from the spec: deterministic serialization of the whole map
(as an association list). -/
def serializeMap : List (String × String) → List Nat
  | [] => []
  | kv :: rest => serializePair kv ++ serializeMap rest

/-- Read one length-prefixed chunk. -/
def readChunk (l : List Nat) : Option (List Nat × List Nat) :=
  match l with
  | [] => none
  | n :: rest =>
    if n ≤ rest.length then some (rest.take n, rest.drop n) else none

/-- Modelled from the spec: deserialization (`json.Unmarshal`), with fuel
bounding the number of pairs. -/
def deserializeMapFuel : Nat → List Nat → Option (List (String × String))
  | _, [] => some []
  | 0, _ :: _ => none
  | fuel + 1, x :: xs =>
    match readChunk (x :: xs) with
    | none => none
    | some (kb, rest1) =>
      match readChunk rest1 with
      | none => none
      | some (vb, rest2) =>
        match deserializeMapFuel fuel rest2 with
        | none => none
        | some m => some ((bytesStr kb, bytesStr vb) :: m)

/-- Deserialization with enough fuel for any input. -/
def deserializeMap (l : List Nat) : Option (List (String × String)) :=
  deserializeMapFuel l.length l

/-- `readChunk` recovers an encoded chunk. -/
theorem readChunk_encode (xs ys : List Nat) :
    readChunk (xs.length :: (xs ++ ys)) = some (xs, ys) := by
  simp [readChunk, List.take_left, List.drop_left, Nat.le_add_right]

/-- Each serialized pair occupies at least one slot. -/
theorem length_le_serializeMap (m : List (String × String)) :
    m.length ≤ (serializeMap m).length := by
  induction m with
  | nil => simp [serializeMap]
  | cons kv rest ih =>
    simp only [serializeMap, serializePair, List.length_append,
      List.length_cons]
    omega

/-- Round trip of the modelled serialization, for any sufficient fuel. -/
theorem deserializeMapFuel_serializeMap (m : List (String × String)) :
    ∀ fuel, m.length ≤ fuel →
      deserializeMapFuel fuel (serializeMap m) = some m := by
  induction m with
  | nil =>
    intro fuel _
    cases fuel <;> rfl
  | cons kv rest ih =>
    intro fuel hf
    cases fuel with
    | zero => simp at hf
    | succ f =>
      have hser : serializeMap (kv :: rest) =
          (strBytes kv.1).length ::
            (strBytes kv.1 ++
              ((strBytes kv.2).length ::
                (strBytes kv.2 ++ serializeMap rest))) := by
        simp [serializeMap, serializePair]
      rw [hser]
      simp only [deserializeMapFuel, readChunk_encode]
      rw [ih f (Nat.le_of_succ_le_succ hf), bytesStr_strBytes,
        bytesStr_strBytes]

/-- Round trip of `deserializeMap`. -/
theorem deserializeMap_serializeMap (m : List (String × String)) :
    deserializeMap (serializeMap m) = some m :=
  deserializeMapFuel_serializeMap m _ (length_le_serializeMap m)

/-- Injective encoding of a byte list into one natural. -/
def listEncode : List Nat → Nat
  | [] => 0
  | x :: xs => Nat.pair x (listEncode xs) + 1

/-- `listEncode` is injective. -/
theorem listEncode_inj {xs ys : List Nat}
    (h : listEncode xs = listEncode ys) : xs = ys := by
  induction xs generalizing ys with
  | nil =>
    cases ys with
    | nil => rfl
    | cons y ys => simp [listEncode] at h
  | cons x xs ih =>
    cases ys with
    | nil => simp [listEncode] at h
    | cons y ys =>
      simp only [listEncode, Nat.add_right_cancel_iff] at h
      obtain ⟨h1, h2⟩ := Nat.pair_eq_pair.mp h
      rw [h1, ih h2]

/-- The AEAD nonce size (`gcm.NonceSize()` for AES-GCM). -/
def gcmNonceSize : Nat := 12

/-- Modelled from the spec: the ideal authentication tag over key, nonce
and body. -/
def gcmTag (key nonce body : List Nat) : Nat :=
  Nat.pair (listEncode key) (Nat.pair (listEncode nonce) (listEncode body))

/-- Modelled from the spec: `gcm.Seal(nil, nonce, plaintext, nil)` —
ciphertext body followed by the tag. -/
def gcmSeal (key nonce pt : List Nat) : List Nat :=
  pt ++ [gcmTag key nonce pt]

/-- Modelled from the spec: `gcm.Open(nil, nonce, ciphertext, nil)` —
recompute the tag over the body and compare. -/
def gcmOpen (key nonce ct : List Nat) : Option (List Nat) :=
  match ct.getLast? with
  | none => none
  | some tag =>
    if tag = gcmTag key nonce ct.dropLast then some ct.dropLast else none

/-- The tag binds all three components. -/
theorem gcmTag_inj {k n b k' n' b' : List Nat}
    (h : gcmTag k n b = gcmTag k' n' b') : k = k' ∧ n = n' ∧ b = b' := by
  obtain ⟨h1, h23⟩ := Nat.pair_eq_pair.mp h
  obtain ⟨h2, h3⟩ := Nat.pair_eq_pair.mp h23
  exact ⟨listEncode_inj h1, listEncode_inj h2, listEncode_inj h3⟩

/-- Opening an honestly sealed ciphertext succeeds. -/
theorem gcmOpen_seal (key nonce pt : List Nat) :
    gcmOpen key nonce (gcmSeal key nonce pt) = some pt := by
  simp [gcmOpen, gcmSeal, List.getLast?_concat, List.dropLast_concat]

/-- Embedding of `Encrypt` from encryption.go: marshal, reject a key that
is not 32 bytes, and emit `nonce || ciphertext || tag` (the nonce the
source draws from `crypto/rand` is a parameter here). -/
def Encrypt (data : List (String × String)) (key nonce : List Nat) :
    Option (List Nat) :=
  let plaintext := serializeMap data
  if key.length ≠ 32 then none
  else some (nonce ++ gcmSeal key nonce plaintext)

/-- Embedding of `Decrypt` from encryption.go: empty input is the empty
map; reject a key that is not 32 bytes, then input shorter than the nonce;
split off the nonce, open, unmarshal. -/
def Decrypt (ciphertext : List Nat) (key : List Nat) :
    Option (List (String × String)) :=
  if ciphertext.length = 0 then some []
  else if key.length ≠ 32 then none
  else if ciphertext.length < gcmNonceSize then none
  else
    match gcmOpen key (ciphertext.take gcmNonceSize)
        (ciphertext.drop gcmNonceSize) with
    | none => none
    | some pt => deserializeMap pt

/-- A list changed at an in-range position to a fresh value is a different
list. -/
theorem set_ne_of_ne_getD {l : List Nat} {i b : Nat} (h : i < l.length)
    (hb : b ≠ l.getD i 0) : l.set i b ≠ l := by
  intro heq
  apply hb
  have h2 : (l.set i b).getD i 0 = l.getD i 0 := by rw [heq]
  rw [List.getD_eq_getElem?_getD, List.getElem?_set_self,
    List.getD_eq_getElem?_getD, List.getElem?_eq_getElem h] at h2
  rw [List.getD_eq_getElem?_getD, List.getElem?_eq_getElem h]
  simpa using h2
  exact h

/-- `getD` on the left part of an append. -/
theorem getD_append_lt {l1 l2 : List Nat} {i : Nat} (h : i < l1.length) :
    (l1 ++ l2).getD i 0 = l1.getD i 0 := by
  rw [List.getD_eq_getElem?_getD, List.getD_eq_getElem?_getD,
    List.getElem?_append_left h]

/-- `getD` on the right part of an append. -/
theorem getD_append_ge {l1 l2 : List Nat} {i : Nat} (h : l1.length ≤ i) :
    (l1 ++ l2).getD i 0 = l2.getD (i - l1.length) 0 := by
  rw [List.getD_eq_getElem?_getD, List.getD_eq_getElem?_getD,
    List.getElem?_append_right h]

/-- C3: Encrypt fails exactly on a key that is not 32 bytes; with a
32-byte key, Decrypt inverts Encrypt for every nonce of the AEAD's nonce
size; Decrypt accepts empty input as the empty map; Decrypt rejects
nonempty input shorter than the nonce, any other 32-byte key, and any
single-position modification of the ciphertext. -/
theorem encrypt_decrypt_contract
    (data : List (String × String)) (key key' nonce : List Nat)
    (hn : nonce.length = gcmNonceSize) :
    ((Encrypt data key nonce = none) ↔ key.length ≠ 32) ∧
    (Decrypt [] key = some []) ∧
    (∀ l : List Nat, l ≠ [] → l.length < gcmNonceSize →
      Decrypt l key = none) ∧
    (∀ c : List Nat, key.length = 32 → Encrypt data key nonce = some c →
      Decrypt c key = some data ∧
      (key'.length = 32 → key' ≠ key → Decrypt c key' = none) ∧
      (∀ i b, i < c.length → b ≠ c.getD i 0 →
        Decrypt (c.set i b) key = none)) := by
  refine ⟨?_, ?_, ?_, ?_⟩
  · by_cases hk : key.length = 32 <;> simp [Encrypt, hk]
  · simp [Decrypt]
  · intro l hne hlt
    have h0 : ¬(l.length = 0) := by simpa [List.length_eq_zero] using hne
    by_cases hkk : key.length = 32 <;> simp [Decrypt, h0, hkk, hlt]
  · intro c hk hc
    have hc' : c = nonce ++ gcmSeal key nonce (serializeMap data) := by
      simp [Encrypt, hk] at hc
      exact hc.symm
    have hlenc : c.length =
        nonce.length + ((serializeMap data).length + 1) := by
      simp [hc', gcmSeal]
    have hne0 : ¬(c.length = 0) := by omega
    have hcne : ¬(c = []) := by
      intro h
      rw [h] at hlenc
      simp at hlenc
      omega
    have hnl : ¬(c.length < gcmNonceSize) := by
      rw [← hn]
      omega
    have htake : c.take gcmNonceSize = nonce := by
      rw [hc', List.take_left' hn]
    have hdrop : c.drop gcmNonceSize =
        gcmSeal key nonce (serializeMap data) := by
      rw [hc', List.drop_left' hn]
    refine ⟨?_, ?_, ?_⟩
    · simp [Decrypt, hne0, hk, hnl, htake, hdrop, gcmOpen_seal,
        deserializeMap_serializeMap]
    · intro hk' hkne
      have hcond : ¬(gcmTag key nonce (serializeMap data) =
          gcmTag key' nonce (serializeMap data)) :=
        fun hEq => hkne (gcmTag_inj hEq).1.symm
      have hopen : gcmOpen key' nonce
          (gcmSeal key nonce (serializeMap data)) = none := by
        simp [gcmOpen, gcmSeal, List.getLast?_concat, List.dropLast_concat,
          hcond]
      simp [Decrypt, hne0, hk', hnl, htake, hdrop, hopen]
    · intro i b hi hb
      have hlens : (c.set i b).length = c.length := List.length_set c i b
      have hne0s : ¬((c.set i b).length = 0) := by omega
      have hnls : ¬((c.set i b).length < gcmNonceSize) := by
        rw [hlens, ← hn]
        omega
      by_cases hreg : i < nonce.length
      · have hset : c.set i b =
            nonce.set i b ++ gcmSeal key nonce (serializeMap data) := by
          rw [hc', List.set_append_left _ _ hreg]
        have hlenset : (nonce.set i b).length = gcmNonceSize := by
          rw [List.length_set, hn]
        have htakes : (c.set i b).take gcmNonceSize = nonce.set i b := by
          rw [hset, List.take_left' hlenset]
        have hdrops : (c.set i b).drop gcmNonceSize =
            gcmSeal key nonce (serializeMap data) := by
          rw [hset, List.drop_left' hlenset]
        have hbn : b ≠ nonce.getD i 0 := by
          rw [hc', getD_append_lt hreg] at hb
          exact hb
        have hnn : nonce.set i b ≠ nonce := set_ne_of_ne_getD hreg hbn
        have hcond : ¬(gcmTag key nonce (serializeMap data) =
            gcmTag key (nonce.set i b) (serializeMap data)) :=
          fun hEq => hnn (gcmTag_inj hEq).2.1.symm
        have hopen : gcmOpen key (nonce.set i b)
            (gcmSeal key nonce (serializeMap data)) = none := by
          simp [gcmOpen, gcmSeal, List.getLast?_concat,
            List.dropLast_concat, hcond]
        simp [Decrypt, hne0s, hcne, hk, hnls, htakes, hdrops, hopen]
      · have hge : nonce.length ≤ i := Nat.le_of_not_lt hreg
        have hset : c.set i b =
            nonce ++ (gcmSeal key nonce (serializeMap data)).set
              (i - nonce.length) b := by
          rw [hc', List.set_append_right _ _ hge]
        have htakes : (c.set i b).take gcmNonceSize = nonce := by
          rw [hset, List.take_left' hn]
        have hdrops : (c.set i b).drop gcmNonceSize =
            (gcmSeal key nonce (serializeMap data)).set
              (i - nonce.length) b := by
          rw [hset, List.drop_left' hn]
        have hbj : b ≠ (gcmSeal key nonce (serializeMap data)).getD
            (i - nonce.length) 0 := by
          rw [hc', getD_append_ge hge] at hb
          exact hb
        have hj : i - nonce.length < (serializeMap data).length + 1 := by
          omega
        by_cases hjlt : i - nonce.length < (serializeMap data).length
        · have hsetj : (gcmSeal key nonce (serializeMap data)).set
              (i - nonce.length) b =
              (serializeMap data).set (i - nonce.length) b ++
                [gcmTag key nonce (serializeMap data)] := by
            rw [gcmSeal, List.set_append_left _ _ hjlt]
          have hbp : b ≠ (serializeMap data).getD (i - nonce.length) 0 := by
            rw [gcmSeal, getD_append_lt hjlt] at hbj
            exact hbj
          have hpp : (serializeMap data).set (i - nonce.length) b ≠
              serializeMap data := set_ne_of_ne_getD hjlt hbp
          have hcond : ¬(gcmTag key nonce (serializeMap data) =
              gcmTag key nonce
                ((serializeMap data).set (i - nonce.length) b)) :=
            fun hEq => hpp (gcmTag_inj hEq).2.2.symm
          have hopen : gcmOpen key nonce
              ((gcmSeal key nonce (serializeMap data)).set
                (i - nonce.length) b) = none := by
            rw [hsetj]
            simp [gcmOpen, List.getLast?_concat, List.dropLast_concat,
              hcond]
          simp [Decrypt, hne0s, hcne, hk, hnls, htakes, hdrops, hopen]
        · have hjeq : i - nonce.length = (serializeMap data).length := by
            omega
          have hsetj : (gcmSeal key nonce (serializeMap data)).set
              (i - nonce.length) b =
              serializeMap data ++ [b] := by
            rw [gcmSeal, List.set_append_right _ _ (le_of_eq hjeq.symm),
              hjeq, Nat.sub_self]
            rfl
          have hbt : b ≠ gcmTag key nonce (serializeMap data) := by
            rw [gcmSeal, getD_append_ge (le_of_eq hjeq.symm), hjeq,
              Nat.sub_self] at hbj
            exact hbj
          have hopen : gcmOpen key nonce
              ((gcmSeal key nonce (serializeMap data)).set
                (i - nonce.length) b) = none := by
            rw [hsetj]
            simp [gcmOpen, List.getLast?_concat, List.dropLast_concat, hbt]
          simp [Decrypt, hne0s, hcne, hk, hnls, htakes, hdrops, hopen]

/-- Witness for C3 at a one-entry map, two distinct 32-byte keys and a
12-byte nonce. -/
theorem encrypt_decrypt_contract_witness :
    ((Encrypt [("A", "x")] (List.replicate 32 1) (List.replicate 12 0) =
        none) ↔ (List.replicate 32 1).length ≠ 32) ∧
    (Decrypt [] (List.replicate 32 1) = some []) ∧
    (∀ l : List Nat, l ≠ [] → l.length < gcmNonceSize →
      Decrypt l (List.replicate 32 1) = none) ∧
    (∀ c : List Nat, (List.replicate 32 1).length = 32 →
      Encrypt [("A", "x")] (List.replicate 32 1) (List.replicate 12 0) =
        some c →
      Decrypt c (List.replicate 32 1) = some [("A", "x")] ∧
      ((List.replicate 32 2).length = 32 →
        List.replicate 32 2 ≠ List.replicate 32 1 →
        Decrypt c (List.replicate 32 2) = none) ∧
      (∀ i b, i < c.length → b ≠ c.getD i 0 →
        Decrypt (c.set i b) (List.replicate 32 1) = none)) :=
  encrypt_decrypt_contract [("A", "x")] (List.replicate 32 1)
    (List.replicate 32 2) (List.replicate 12 0) (by decide)

/-! ## Deployment creation and rollback
(src/unnamed/part_024 Post, part_021 Post, part_027 queries) -/

/-- The columns of a `deployments` row the claims observe. -/
structure DeploymentRow where
  id : Nat
  version : Nat
  image : String
  status : String
  deriving Repr, DecidableEq

/-- The deployments of one app, in insertion order. -/
abbrev DeployStore := List DeploymentRow

/-- Version of the row `GetLatestDeployment` returns (`ORDER BY version
DESC LIMIT 1`), with 0 when the app has no deployments yet — the handler
then uses version 1, i.e. always `latestVersion + 1`. -/
def latestVersion (s : DeployStore) : Nat :=
  s.foldr (fun r acc => max r.version acc) 0

/-- The `nextVersion` computation of the deployments `Post` handler:
`GetLatestDeployment` then `latest.Version + 1`, or 1 when no row exists. -/
def nextVersion (s : DeployStore) : Nat :=
  latestVersion s + 1

/-- One complete run of the create-deployment handler core: read the
latest version, then insert the new pending row (`CreateDeployment`). -/
def createDeploymentSeq (store : DeployStore) (img : String) :
    DeploymentRow × DeployStore :=
  let v := nextVersion store
  let row : DeploymentRow :=
    { id := store.length, version := v, image := img, status := "pending" }
  (row, store ++ [row])

/-- Sequential creation of one deployment per image, each handler run
completing before the next starts. -/
def runSeq (imgs : List String) (store : DeployStore) : DeployStore :=
  imgs.foldl (fun st img => (createDeploymentSeq st img).2) store

/-- Progress of one in-flight create-deployment handler: before the
`GetLatestDeployment` read, between the read and the `CreateDeployment`
insert, or done. -/
inductive OpPhase where
  | ready
  | readDone (v : Nat)
  | finished
  deriving Repr, DecidableEq

/-- An in-flight create-deployment request: its image and its progress. -/
structure OpState where
  img : String
  phase : OpPhase
  deriving Repr, DecidableEq

/-- `true` iff the request has completed both steps. -/
def isFinished : OpPhase → Bool
  | .finished => true
  | _ => false

/-- One scheduler step of an in-flight request: the handler's read and
insert are separate database round-trips (no transaction in the source),
so each is one atomic step. -/
def stepOp (store : DeployStore) (op : OpState) : DeployStore × OpState :=
  match op.phase with
  | .ready => (store, { op with phase := .readDone (nextVersion store) })
  | .readDone v =>
    (store ++ [{ id := store.length, version := v, image := op.img,
                 status := "pending" }],
     { op with phase := .finished })
  | .finished => (store, op)

/-- Run a schedule (a list of request indices); each occurrence of an
index advances that request by one step. -/
def runSched : List Nat → DeployStore → List OpState →
    DeployStore × List OpState
  | [], store, ops => (store, ops)
  | i :: rest, store, ops =>
    match ops.get? i with
    | none => runSched rest store ops
    | some op =>
      let p := stepOp store op
      runSched rest p.1 (ops.set i p.2)

/-- `GetDeploymentByID` restricted to one app's rows. -/
def getDeploymentByID (s : DeployStore) (i : Nat) : Option DeploymentRow :=
  s.find? (fun r => r.id = i)

/-- Outcome of the rollback handler. -/
structure RollbackOutcome where
  status : Nat
  newRow : Option DeploymentRow
  store : DeployStore

/-- Embedding of `Post` from part_021 (rollback): fetch the prior row by
id, then `CreateDeployment` with `Version := prior.Version + 1`,
`Image := prior.Image`, `Status := "pending"`. -/
def rollbackPost (s : DeployStore) (depId : Nat) (newId : Nat) :
    RollbackOutcome :=
  match getDeploymentByID s depId with
  | none => { status := 404, newRow := none, store := s }
  | some d =>
    let nd : DeploymentRow :=
      { id := newId, version := d.version + 1, image := d.image,
        status := "pending" }
    { status := 201, newRow := some nd, store := s ++ [nd] }

/-! ## Cluster deploy (src/internal/k8s/deploy.go, Deploy / waitForDeployment) -/

/-- The five cluster resources a deploy applies. -/
inductive Resource where
  | namespaceRes
  | secretRes
  | deploymentRes
  | serviceRes
  | ingressRes
  deriving Repr, DecidableEq

/-- `DeployResult` from deploy.go (the URL is omitted on the timeout path,
as in the source). -/
structure DeployResult where
  success : Bool
  message : String
  nsName : String
  url : String
  deriving Repr, DecidableEq

/-- Outcomes of the five idempotent applies, as observed from the cluster:
`true` means `ensureNamespace`/`applySecret`/… returned nil. -/
structure ApplyOutcomes where
  nsOk : Bool
  secretOk : Bool
  deploymentOk : Bool
  serviceOk : Bool
  ingressOk : Bool
  deriving Repr, DecidableEq

/-- Poll interval of `waitForDeployment` in seconds (`2*time.Second`). -/
def pollIntervalSeconds : Nat := 2

/-- Poll timeout of `waitForDeployment` in seconds (`5*time.Minute`). -/
def waitTimeoutSeconds : Nat := 300

/-- Maximum number of polls within the timeout window. -/
def maxPolls : Nat := waitTimeoutSeconds / pollIntervalSeconds

/-- Embedding of `waitForDeployment`: poll the deployment status up to
`fuel` times; each observation is `none` when the Get fails, otherwise
`(status.readyReplicas, spec.replicas)`; succeed as soon as
`readyReplicas ≥ spec.replicas`. -/
def waitForDeployment (obs : Nat → Option (Int × Int)) : Nat → Nat → Bool
  | 0, _ => false
  | fuel + 1, tick =>
    match obs tick with
    | some (ready, spec) =>
      if ready ≥ spec then true else waitForDeployment obs fuel (tick + 1)
    | none => waitForDeployment obs fuel (tick + 1)

/-- Embedding of `Deploy`: run the five applies in source order, recording
the successfully applied resources (which stay in the cluster); on an apply
error return `(none, some err)`; after all applies run the readiness wait
and on its timeout return `{success := false, namespace}` with a nil
error. -/
def deploy (o : ApplyOutcomes) (obs : Nat → Option (Int × Int))
    (ns name domainSuffix domain : String) :
    Option DeployResult × Option String × List Resource :=
  if ¬o.nsOk then
    (none, some "failed to create namespace", [])
  else if ¬o.secretOk then
    (none, some "failed to apply secret", [.namespaceRes])
  else if ¬o.deploymentOk then
    (none, some "failed to apply deployment", [.namespaceRes, .secretRes])
  else if ¬o.serviceOk then
    (none, some "failed to apply service",
      [.namespaceRes, .secretRes, .deploymentRes])
  else if ¬o.ingressOk then
    (none, some "failed to apply ingress",
      [.namespaceRes, .secretRes, .deploymentRes, .serviceRes])
  else
    let applied : List Resource :=
      [.namespaceRes, .secretRes, .deploymentRes, .serviceRes, .ingressRes]
    if ¬waitForDeployment obs maxPolls 0 then
      (some { success := false, message := "deployment did not become ready",
              nsName := ns, url := "" }, none, applied)
    else
      let url :=
        if domain ≠ "" then "https://" ++ domain
        else "https://" ++ name ++ "." ++ domainSuffix
      (some { success := true, message := "deployment successful",
              nsName := ns, url := url }, none, applied)

/-! ## App creation (src/app/api/apps route file, package apps, Post) -/

/-- `'a' ≤ c ≤ 'z'`. -/
def isLowerAlpha (c : Char) : Bool :=
  'a' ≤ c && c ≤ 'z'

/-- `'0' ≤ c ≤ '9'`. -/
def isDigitCh (c : Char) : Bool :=
  '0' ≤ c && c ≤ '9'

/-- Character class `[a-z0-9-]` of the app-name regex. -/
def isNameBody (c : Char) : Bool :=
  isLowerAlpha c || isDigitCh c || c = '-'

/-- Embedding of `appNameRegex = ^[a-z][a-z0-9-]*[a-z0-9]$`: a leading
lowercase letter, any run of `[a-z0-9-]`, and a final `[a-z0-9]` (so at
least two characters). -/
def appNameRegexMatch (s : String) : Bool :=
  match s.data with
  | [] => false
  | c :: rest =>
    match rest.getLast? with
    | none => false
    | some lastc =>
      isLowerAlpha c && rest.dropLast.all isNameBody &&
        (isLowerAlpha lastc || isDigitCh lastc)

/-- `CreateAppRequest` from the apps route file. -/
structure CreateAppRequest where
  name : String
  region : String
  size : String
  deriving Repr, DecidableEq

/-- The part of the created `apps` row the claim observes. -/
structure CreatedApp where
  name : String
  region : String
  size : String
  deriving Repr, DecidableEq

/-- Outcome of the create-app handler: HTTP status and the row handed to
`CreateApp` on the 201 path. -/
structure CreateAppOutcome where
  status : Nat
  created : Option CreatedApp
  deriving Repr, DecidableEq

/-- Embedding of `Post` from the apps route file: name checks, the
region/size defaulting, membership validation, the `(owner, name)`
uniqueness probe via `GetAppByName` (`taken`), then `CreateApp`.  Go's
`len` counts bytes; the handler only reaches `CreateApp` for names the
regex accepts, which are ASCII, so `String.length` agrees there. -/
def appsPost (req : CreateAppRequest) (taken : Bool) (createOk : Bool) :
    CreateAppOutcome :=
  if req.name = "" then { status := 400, created := none }
  else if req.name.length < 3 ∨ req.name.length > 63 then
    { status := 400, created := none }
  else if ¬appNameRegexMatch req.name then { status := 400, created := none }
  else
    let region := if req.region = "" then "gdl" else req.region
    let size := if req.size = "" then "starter" else req.size
    if ¬(region = "gdl" ∨ region = "mex" ∨ region = "qro") then
      { status := 400, created := none }
    else if ¬(size = "starter" ∨ size = "pro" ∨ size = "enterprise") then
      { status := 400, created := none }
    else if taken then { status := 409, created := none }
    else if ¬createOk then { status := 500, created := none }
    else
      { status := 201,
        created := some { name := req.name, region := region, size := size } }

end FuegoCloud

namespace FuegoCloud

/-! ## Theorems for C7 and C8 -/

/-- C7: POST /api/apps/:name/scale accepts exactly replicas in [0,10]:
out-of-range values (such as -1 and 11) get 400 before any cluster call,
while in-range values (such as 0 and 10) pass validation and are forwarded
to the cluster. -/
theorem scale_accepts_exactly_0_to_10
    (req : ScaleRequest) (appFound k8sAvailable scaleOk : Bool)
    (hout : req.replicas < 0 ∨ req.replicas > 10) :
    scalePost req appFound k8sAvailable scaleOk =
      { status := 400, clusterCalled := false, replicasOut := none } ∧
    ∀ req' : ScaleRequest, 0 ≤ req'.replicas → req'.replicas ≤ 10 →
      scalePost req' true true true =
        { status := 200, clusterCalled := true, replicasOut := some req'.replicas } := by
  constructor
  · simp [scalePost, hout]
  · intro req' h0 h10
    have hnot : ¬(req'.replicas < 0 ∨ req'.replicas > 10) := by
      push_neg
      exact ⟨h0, h10⟩
    simp [scalePost, hnot]

/-- Witness for C7 at replicas = -1 (rejected) and replicas = 0, 10
(accepted and forwarded). -/
theorem scale_accepts_exactly_0_to_10_witness :
    scalePost ⟨-1⟩ true true true =
      { status := 400, clusterCalled := false, replicasOut := none } ∧
    scalePost ⟨11⟩ true true true =
      { status := 400, clusterCalled := false, replicasOut := none } ∧
    scalePost ⟨0⟩ true true true =
      { status := 200, clusterCalled := true, replicasOut := some 0 } ∧
    scalePost ⟨10⟩ true true true =
      { status := 200, clusterCalled := true, replicasOut := some 10 } := by
  refine ⟨(scale_accepts_exactly_0_to_10 ⟨-1⟩ true true true (by decide)).1,
          (scale_accepts_exactly_0_to_10 ⟨11⟩ true true true (by decide)).1,
          ?_, ?_⟩
  · exact (scale_accepts_exactly_0_to_10 ⟨-1⟩ true true true (by decide)).2 ⟨0⟩
      (by decide) (by decide)
  · exact (scale_accepts_exactly_0_to_10 ⟨-1⟩ true true true (by decide)).2 ⟨10⟩
      (by decide) (by decide)

/-- C8 counterexample: with a healthy database but an unhealthy Kubernetes
client the handler still answers 200, refuting "503 whenever any dependency
is unhealthy". -/
theorem health_unhealthy_k8s_gives_200 :
    (healthGet .healthy .unhealthy).1 = 200 ∧
    (healthGet .healthy .unhealthy).2.kubernetes = "unhealthy" := by
  constructor <;> rfl

/-- C8 amended: GET /api/health returns 200 with body fields status,
database, kubernetes, version when all dependencies are healthy, and
returns 503 exactly when the database ping fails; a nil database pool or an
unhealthy or absent Kubernetes client still yields 200. -/
theorem health_status_characterization (db k8s : DepState) :
    (healthGet .healthy .healthy =
      (200, { status := "ok", database := "healthy",
              kubernetes := "healthy", version := "0.1.0" })) ∧
    ((healthGet db k8s).1 = 503 ↔ db = .unhealthy) := by
  constructor
  · rfl
  · cases db <;> cases k8s <;> simp [healthGet]

/-! ## Theorems for C5 and C10 -/

/-- C5: a bearer credential beginning with `fgt_` is routed to the
API-token path and any other credential to the session (JWT) path; an API
token whose `expires_at` is set and earlier than the current time fails
authentication with 401 (`token expired`), the judgement depending only on
`now` versus `expires_at` and not on the token's creation time. -/
theorem middleware_fgt_routing_and_expiry
    (tokens : List ApiTokenRec) (bcryptMatch : String → String → Bool)
    (userOf : Nat → Option Nat) (jwtClaims : String → Option Nat)
    (cred : String) (now : Int)
    (t : ApiTokenRec) (exp : Int)
    (hfind : findAPITokenByPrefix tokens bcryptMatch cred = some t)
    (hexp : t.expiresAt = some exp) (hlt : exp < now) :
    ((middlewareAuth tokens bcryptMatch userOf jwtClaims cred now).1 =
        (if isApiTokenCred cred then .apiToken else .session)) ∧
    (isApiTokenCred cred = true →
      (middlewareAuth tokens bcryptMatch userOf jwtClaims cred now).2 =
        .unauthorized "token expired") ∧
    (∀ created : Int,
      handleAPIToken tokens bcryptMatch userOf cred now =
        handleAPIToken (tokens.map (fun r => { r with createdAt := created }))
          bcryptMatch userOf cred now) := by
  refine ⟨?_, ?_, ?_⟩
  · by_cases h : isApiTokenCred cred <;>
      simp [middlewareAuth, h] <;>
      cases jwtClaims cred <;> simp
  · intro h
    simp [middlewareAuth, h, handleAPIToken, hfind, hexp, hlt]
  · intro created
    have hmap : ∀ l : List ApiTokenRec,
        findAPITokenByPrefix (l.map (fun r => { r with createdAt := created }))
            bcryptMatch cred =
          Option.map (fun r : ApiTokenRec => { r with createdAt := created })
            (findAPITokenByPrefix l bcryptMatch cred) := by
      intro l
      induction l with
      | nil => rfl
      | cons a l ih =>
        by_cases h : bcryptMatch a.tokenHash cred <;>
          simp [findAPITokenByPrefix, List.find?, h] at ih ⊢ <;>
          exact ih
    simp only [handleAPIToken, hmap tokens, hfind, Option.map_some']

/-- Witness for C5: a concrete store with one expired `fgt_` token. -/
theorem middleware_fgt_routing_and_expiry_witness :
    (middlewareAuth
        [{ id := 7, userId := 3, tokenHash := "h", expiresAt := some 100,
           createdAt := 0 }]
        (fun h tok => h = "h" && tok = "fgt_abc") (fun _ => some 3)
        (fun _ => none) "fgt_abc" 200).2 = .unauthorized "token expired" :=
  (middleware_fgt_routing_and_expiry
    [{ id := 7, userId := 3, tokenHash := "h", expiresAt := some 100,
       createdAt := 0 }]
    (fun h tok => h = "h" && tok = "fgt_abc") (fun _ => some 3)
    (fun _ => none) "fgt_abc" 200
    { id := 7, userId := 3, tokenHash := "h", expiresAt := some 100,
      createdAt := 0 } 100
    (by decide) rfl (by decide)).2.1 (by decide)

/-- C6: within a single Deploy the cluster resources are applied in the
order namespace, secret, deployment, service, ingress (the applied trace is
always a prefix of that order), and when the readiness wait (polling every
2 seconds for up to 5 minutes for readyReplicas >= spec.replicas) times
out, Deploy returns `{success := false, ..}` with a nil error while all
five applied resources stay in place. -/
theorem deploy_order_and_timeout
    (o : ApplyOutcomes) (obs : Nat → Option (Int × Int))
    (ns name suffix domain : String)
    (hwait : waitForDeployment obs maxPolls 0 = false) :
    (∃ k, (deploy o obs ns name suffix domain).2.2 =
      ([.namespaceRes, .secretRes, .deploymentRes, .serviceRes,
        .ingressRes] : List Resource).take k) ∧
    (o = ⟨true, true, true, true, true⟩ →
      deploy o obs ns name suffix domain =
        (some { success := false,
                message := "deployment did not become ready",
                nsName := ns, url := "" }, none,
         [.namespaceRes, .secretRes, .deploymentRes, .serviceRes,
          .ingressRes])) ∧
    pollIntervalSeconds = 2 ∧ waitTimeoutSeconds = 300 := by
  refine ⟨?_, ?_, rfl, rfl⟩
  · obtain ⟨a, b, c, d, e⟩ := o
    cases a with
    | false => exact ⟨0, by simp [deploy]⟩
    | true =>
      cases b with
      | false => exact ⟨1, by simp [deploy]⟩
      | true =>
        cases c with
        | false => exact ⟨2, by simp [deploy]⟩
        | true =>
          cases d with
          | false => exact ⟨3, by simp [deploy]⟩
          | true =>
            cases e with
            | false => exact ⟨4, by simp [deploy]⟩
            | true => exact ⟨5, by simp [deploy, hwait]⟩
  · rintro rfl
    simp [deploy, hwait]

/-- Witness for C6: all five applies succeed against a cluster whose
deployment never reports enough ready replicas, so the wait times out. -/
theorem deploy_order_and_timeout_witness :
    (∃ k, (deploy ⟨true, true, true, true, true⟩ (fun _ => some (0, 1))
        "tenant-myapp" "myapp" "nexo.build" "").2.2 =
      ([.namespaceRes, .secretRes, .deploymentRes, .serviceRes,
        .ingressRes] : List Resource).take k) ∧
    (⟨true, true, true, true, true⟩ = (⟨true, true, true, true, true⟩ : ApplyOutcomes) →
      deploy ⟨true, true, true, true, true⟩ (fun _ => some (0, 1))
          "tenant-myapp" "myapp" "nexo.build" "" =
        (some { success := false,
                message := "deployment did not become ready",
                nsName := "tenant-myapp", url := "" }, none,
         [.namespaceRes, .secretRes, .deploymentRes, .serviceRes,
          .ingressRes])) ∧
    pollIntervalSeconds = 2 ∧ waitTimeoutSeconds = 300 :=
  deploy_order_and_timeout ⟨true, true, true, true, true⟩
    (fun _ => some (0, 1)) "tenant-myapp" "myapp" "nexo.build" ""
    (by decide)

/-- C9: in POST /api/apps an omitted or empty region defaults to "gdl" and
an omitted or empty size to "starter" before the membership validation, so
a request carrying only a valid unused name creates an app with region
"gdl" and size "starter". -/
theorem apps_post_defaults
    (name : String) (taken createOk : Bool)
    (hne : name ≠ "") (hlo : 3 ≤ name.length) (hhi : name.length ≤ 63)
    (hre : appNameRegexMatch name = true)
    (htaken : taken = false) (hok : createOk = true) :
    appsPost { name := name, region := "", size := "" } taken createOk =
      { status := 201,
        created := some { name := name, region := "gdl",
                          size := "starter" } } := by
  have hrange : ¬(name.length < 3 ∨ name.length > 63) := by
    push_neg
    exact ⟨hlo, hhi⟩
  simp [appsPost, hne, hrange, hre, htaken, hok]

/-- Witness for C9 at the request `{name := "myapp"}`. -/
theorem apps_post_defaults_witness :
    appsPost { name := "myapp", region := "", size := "" } false true =
      { status := 201,
        created := some { name := "myapp", region := "gdl",
                          size := "starter" } } :=
  apps_post_defaults "myapp" false true (by decide) (by decide) (by decide)
    (by decide) rfl rfl

/-- `latestVersion` of a store with one row appended. -/
theorem latestVersion_append (s : DeployStore) (r : DeploymentRow) :
    latestVersion (s ++ [r]) = max (latestVersion s) r.version := by
  induction s with
  | nil => simp [latestVersion, Nat.max_comm]
  | cons a rest ih =>
    simp only [latestVersion, List.cons_append, List.foldr_cons] at ih ⊢
    rw [ih, Nat.max_assoc]

/-- Every stored version is bounded by `latestVersion`. -/
theorem version_le_latest (s : DeployStore) (r : DeploymentRow)
    (hr : r ∈ s) : r.version ≤ latestVersion s := by
  induction s with
  | nil => cases hr
  | cons a rest ih =>
    rcases List.mem_cons.mp hr with h | h
    · rw [h]
      exact Nat.le_max_left _ _
    · exact Nat.le_trans (ih h)
        (Nat.le_max_right a.version (latestVersion rest))

/-- C1 counterexample: two concurrent create-deployment requests, each a
non-atomic read-then-insert, interleaved as read/read/insert/insert on an
empty history: both complete, both insert version 1, and version 2 — which
the claimed set {latest+1, latest+2} = {1, 2} requires — never appears. -/
theorem concurrent_creates_duplicate_version :
    ((runSched [0, 1, 0, 1] []
        [{ img := "img-a", phase := .ready },
         { img := "img-b", phase := .ready }]).2.all
      (fun op => isFinished op.phase)) = true ∧
    (runSched [0, 1, 0, 1] []
        [{ img := "img-a", phase := .ready },
         { img := "img-b", phase := .ready }]).1.map
      (fun r => r.version) = [1, 1] ∧
    ¬(2 ∈ (runSched [0, 1, 0, 1] []
        [{ img := "img-a", phase := .ready },
         { img := "img-b", phase := .ready }]).1.map
      (fun r => r.version)) := by
  refine ⟨rfl, rfl, ?_⟩
  decide

/-- C1 amended: versions are assigned as `latestVersion + 1` by a
non-atomic read-then-insert, so only sequential creations are guaranteed
strictly increasing versions: a create that runs against the current store
receives a version strictly above every stored one, and k sequential
creations starting from latest version L yield exactly the versions
L+1, .., L+k. -/
theorem create_deployment_sequential_versions
    (store : DeployStore) (img : String) (imgs : List String) :
    ((createDeploymentSeq store img).1.version = latestVersion store + 1 ∧
     ∀ r ∈ store, r.version < (createDeploymentSeq store img).1.version) ∧
    (runSeq imgs store).map (fun r => r.version) =
      store.map (fun r => r.version) ++
        List.range' (latestVersion store + 1) imgs.length := by
  constructor
  · constructor
    · rfl
    · intro r hr
      exact Nat.lt_succ_of_le (version_le_latest store r hr)
  · induction imgs generalizing store with
    | nil => simp [runSeq]
    | cons i rest ih =>
      have hstep : runSeq (i :: rest) store =
          runSeq rest ((createDeploymentSeq store i).2) := rfl
      have hrow : (createDeploymentSeq store i).2 =
          store ++ [{ id := store.length,
                      version := latestVersion store + 1, image := i,
                      status := "pending" }] := rfl
      rw [hstep, ih, hrow, latestVersion_append]
      simp [Nat.max_eq_right (Nat.le_succ (latestVersion store)),
        List.range'_succ]

/-- Witness for C1 amended at a concrete one-row store and two images. -/
theorem create_deployment_sequential_versions_witness :
    (((createDeploymentSeq
        [{ id := 0, version := 3, image := "a:1", status := "running" }]
        "b:2").1.version =
      latestVersion
        [{ id := 0, version := 3, image := "a:1", status := "running" }] + 1 ∧
     ∀ r ∈ [({ id := 0, version := 3, image := "a:1",
               status := "running" } : DeploymentRow)],
       r.version <
         (createDeploymentSeq
           [{ id := 0, version := 3, image := "a:1", status := "running" }]
           "b:2").1.version) ∧
    (runSeq ["b:2", "c:3"]
        [{ id := 0, version := 3, image := "a:1",
           status := "running" }]).map (fun r => r.version) =
      [({ id := 0, version := 3, image := "a:1",
          status := "running" } : DeploymentRow)].map (fun r => r.version) ++
        List.range'
          (latestVersion
            [{ id := 0, version := 3, image := "a:1",
               status := "running" }] + 1) 2) :=
  create_deployment_sequential_versions
    [{ id := 0, version := 3, image := "a:1", status := "running" }]
    "b:2" ["b:2", "c:3"]

/-- C2: evaluating the rollback handler on an app whose history is
version 1 (image "myapp:v1") and version 2 (image "myapp:v2"), rolling
back to the version-1 row: the handler inserts `prior.version + 1 = 2`,
which duplicates the existing version 2 instead of exceeding every
existing deployment (the repo's own rollback test expects version 3
here). -/
theorem rollback_version_not_above_existing :
    (rollbackPost
        [{ id := 1, version := 1, image := "myapp:v1", status := "running" },
         { id := 2, version := 2, image := "myapp:v2", status := "running" }]
        1 3).status = 201 ∧
    (rollbackPost
        [{ id := 1, version := 1, image := "myapp:v1", status := "running" },
         { id := 2, version := 2, image := "myapp:v2", status := "running" }]
        1 3).newRow =
      some { id := 3, version := 2, image := "myapp:v1",
             status := "pending" } ∧
    ¬(∀ r ∈ [({ id := 1, version := 1, image := "myapp:v1",
                status := "running" } : DeploymentRow),
             { id := 2, version := 2, image := "myapp:v2",
               status := "running" }],
        r.version < 2) := by
  refine ⟨rfl, rfl, ?_⟩
  decide

/-- Deleting a state removes every row under that key. -/
theorem getOAuthState_delete (store : StateStore) (st : String) :
    getOAuthState (deleteOAuthState store st) st = none := by
  induction store with
  | nil => rfl
  | cons p rest ih =>
    by_cases h : p.1 = st
    · simpa [getOAuthState, deleteOAuthState, List.filter, h] using ih
    · simpa [getOAuthState, deleteOAuthState, List.filter, List.find?, h]
        using ih

/-- Deleting one key leaves lookups for other keys unchanged. -/
theorem getOAuthState_delete_ne (store : StateStore) (st st' : String)
    (h : st' ≠ st) :
    getOAuthState (deleteOAuthState store st) st' =
      getOAuthState store st' := by
  induction store with
  | nil => rfl
  | cons p rest ih =>
    have hss : ¬(st = st') := fun hc => h hc.symm
    by_cases h1 : p.1 = st
    · have h2 : ¬p.1 = st' := by
        rw [h1]
        exact fun hc => h hc.symm
      simpa [getOAuthState, deleteOAuthState, List.filter, List.find?, h1, h2,
        h, hss] using ih
    · by_cases h2 : p.1 = st'
      · simp [getOAuthState, deleteOAuthState, List.filter, List.find?, h1,
          h2, h, hss]
      · simpa [getOAuthState, deleteOAuthState, List.filter, List.find?, h1,
          h2, h, hss] using ih

/-- After a callback that passes the initial parameter checks, the
presented state is gone from the store (or was never there). -/
theorem callbackGet_consumes (req : CallbackReq) (store : StateStore)
    (now : Int) (o : CallbackOracles) (herr : req.errorParam = "")
    (hcode : req.code ≠ "") (hstate : req.state ≠ "") :
    getOAuthState (callbackGet req store now o).store req.state = none := by
  have hdel := getOAuthState_delete store req.state
  cases hget : getOAuthState store req.state with
  | none => simpa [callbackGet, herr, hcode, hstate, hget] using hget
  | some row =>
    by_cases hexp : now > row.expiresAt
    · simpa [callbackGet, herr, hcode, hstate, hget, hexp] using hdel
    · obtain ⟨e1, e2, e3, e4⟩ := o
      cases e1 <;> cases e2 <;> cases e3 <;> cases e4 <;>
        cases hcli : row.cliTokenExchange.getD false <;>
        simpa [callbackGet, herr, hcode, hstate, hget, hexp, hcli] using hdel

/-- A callback whose state is unknown to the store answers 400. -/
theorem callbackGet_unknown_state (req : CallbackReq) (store : StateStore)
    (now : Int) (o : CallbackOracles)
    (hget : getOAuthState store req.state = none) :
    (callbackGet req store now o).status = 400 := by
  by_cases herr : req.errorParam = ""
  · by_cases hcs : req.code = "" ∨ req.state = "" <;>
      simp [callbackGet, herr, hcs, hget]
  · simp [callbackGet, herr]

/-- C4 counterexample: a callback carrying a provider `error` parameter
and a state that is present in the store answers 400 and leaves the state
row in place, so the row is not consumed on every callback. -/
theorem callback_error_param_leaves_state :
    (callbackGet { code := "c", state := "s", errorParam := "access_denied" }
        [("s", { redirectUri := none, cliTokenExchange := none,
                 expiresAt := 1000 })] 0
        { exchangeOk := true, getUserOk := true, upsertOk := true,
          tokenOk := true }).status = 400 ∧
    getOAuthState
        (callbackGet { code := "c", state := "s", errorParam := "access_denied" }
          [("s", { redirectUri := none, cliTokenExchange := none,
                   expiresAt := 1000 })] 0
          { exchangeOk := true, getUserOk := true, upsertOk := true,
            tokenOk := true }).store "s" =
      some { redirectUri := none, cliTokenExchange := none,
             expiresAt := 1000 } := by
  constructor <;> rfl

/-- C4 amended: the callback consumes the state row on every callback that
passes the initial parameter checks (no provider error, non-empty code and
state) regardless of the later outcome; an unknown or expired state
answers 400; and after a first such callback, a second callback presenting
the same state answers 400. -/
theorem callback_consumes_state
    (req : CallbackReq) (store : StateStore) (now : Int)
    (o : CallbackOracles) (herr : req.errorParam = "")
    (hcode : req.code ≠ "") (hstate : req.state ≠ "") :
    (getOAuthState (callbackGet req store now o).store req.state = none) ∧
    (getOAuthState store req.state = none →
      (callbackGet req store now o).status = 400) ∧
    (∀ row, getOAuthState store req.state = some row → now > row.expiresAt →
      (callbackGet req store now o).status = 400) ∧
    (∀ req2 : CallbackReq, ∀ now2 : Int, ∀ o2 : CallbackOracles,
      req2.state = req.state →
      (callbackGet req2 (callbackGet req store now o).store now2 o2).status =
        400) := by
  refine ⟨callbackGet_consumes req store now o herr hcode hstate, ?_, ?_, ?_⟩
  · exact fun hget => callbackGet_unknown_state req store now o hget
  · intro row hget hexp
    simp [callbackGet, herr, hcode, hstate, hget, hexp]
  · intro req2 now2 o2 hst
    apply callbackGet_unknown_state
    rw [hst]
    exact callbackGet_consumes req store now o herr hcode hstate

/-- Witness for C4 amended: a fresh state consumed by a successful CLI
callback, then presented again. -/
theorem callback_consumes_state_witness :
    (getOAuthState
        (callbackGet { code := "c", state := "s", errorParam := "" }
          [("s", { redirectUri := none, cliTokenExchange := some true,
                   expiresAt := 1000 })] 0
          { exchangeOk := true, getUserOk := true, upsertOk := true,
            tokenOk := true }).store "s" = none) ∧
    (getOAuthState
        [(("s" : String),
          { redirectUri := none, cliTokenExchange := some true,
            expiresAt := 1000 : OAuthStateRec })] "s" = none →
      (callbackGet { code := "c", state := "s", errorParam := "" }
        [("s", { redirectUri := none, cliTokenExchange := some true,
                 expiresAt := 1000 })] 0
        { exchangeOk := true, getUserOk := true, upsertOk := true,
          tokenOk := true }).status = 400) ∧
    (∀ row, getOAuthState
        [(("s" : String),
          { redirectUri := none, cliTokenExchange := some true,
            expiresAt := 1000 : OAuthStateRec })] "s" = some row →
      (0 : Int) > row.expiresAt →
      (callbackGet { code := "c", state := "s", errorParam := "" }
        [("s", { redirectUri := none, cliTokenExchange := some true,
                 expiresAt := 1000 })] 0
        { exchangeOk := true, getUserOk := true, upsertOk := true,
          tokenOk := true }).status = 400) ∧
    (∀ req2 : CallbackReq, ∀ now2 : Int, ∀ o2 : CallbackOracles,
      req2.state = "s" →
      (callbackGet req2
        (callbackGet { code := "c", state := "s", errorParam := "" }
          [("s", { redirectUri := none, cliTokenExchange := some true,
                   expiresAt := 1000 })] 0
          { exchangeOk := true, getUserOk := true, upsertOk := true,
            tokenOk := true }).store now2 o2).status = 400) :=
  callback_consumes_state
    { code := "c", state := "s", errorParam := "" }
    [("s", { redirectUri := none, cliTokenExchange := some true,
             expiresAt := 1000 })] 0
    { exchangeOk := true, getUserOk := true, upsertOk := true,
      tokenOk := true }
    rfl (by decide) (by decide)

/-- C10: once a domain row is marked verified, the verify endpoint answers
200 with `verified:true` and the stored `verified_at`, performs no DNS
lookup, and leaves the row unchanged. -/
theorem verify_idempotent_on_verified
    (aid : Nat) (d : DomainRec) (dns : Option Bool) (now : Int)
    (updateOk : Bool) (howner : d.appId = aid) (hver : d.verified = true) :
    verifyPost (some aid) (some d) dns now updateOk =
      { status := 200,
        body := some { domain := d.domain, verified := true,
                       verifiedAt := d.verifiedAt,
                       message := "domain already verified" },
        dnsCalled := false, finalRow := some d } := by
  simp [verifyPost, howner, hver]

/-- Witness for C10 at a concrete verified domain row. -/
theorem verify_idempotent_on_verified_witness :
    verifyPost (some 5)
        (some { domain := "app.example.com", appId := 5, verified := true,
                verifiedAt := some 1111, sslStatus := "active" })
        (some false) 9999 true =
      { status := 200,
        body := some { domain := "app.example.com", verified := true,
                       verifiedAt := some 1111,
                       message := "domain already verified" },
        dnsCalled := false,
        finalRow := some { domain := "app.example.com", appId := 5,
                           verified := true, verifiedAt := some 1111,
                           sslStatus := "active" } } :=
  verify_idempotent_on_verified 5
    { domain := "app.example.com", appId := 5, verified := true,
      verifiedAt := some 1111, sslStatus := "active" }
    (some false) 9999 true rfl rfl

end FuegoCloud
